import Mathlib

/-!
Shallow embedding of the CLI orchestration layer in
`src/imaginairy/cmds.py`: the batch-construction logic of `imagine_cmd`
(sampler override for img2img, lazy wrapping of an http init image, the
repeat/prompt nested loop building `ImaginePrompt` jobs) and the
`describe` subcommand (per-image source resolution and captioning).
Numeric CLI parameters typed `int` in the source are `Int`; the float
parameters are carried, never computed with, and are modelled as `Rat`;
optional string options default to `None` and are `Option String`.
-/

/-- Python truthiness of an optional string: `None` and the empty string
are falsy, every other string is truthy. -/
def pyTruthy : Option String → Bool
  | none => false
  | some s => !s.isEmpty

/-- Python `s.startswith(pre)`: the character sequence of `pre` is a
prefix of the character sequence of `s`. -/
def pyStartsWith (s pre : String) : Bool :=
  pre.data.isPrefixOf s.data

/-- The scheme text tested by the `startswith` origin checks. -/
def httpScheme : String := "http"

/-- The designated img2img-compatible sampler identifier. -/
def ddimSampler : String := "ddim"

/-- An image reference as it appears in a constructed job: either the raw
string the CLI received, or a `LazyLoadingImage` created from a url or
from a filepath. -/
inductive ImageRef where
  | rawString (s : String)
  | lazyUrl (url : String)
  | lazyFile (filepath : String)
deriving DecidableEq, Repr

/-- One generation job, with exactly the fields the `ImaginePrompt`
constructor call at `cmds.py:199-215` binds. -/
structure ImaginePrompt where
  prompt_text : String
  prompt_strength : Rat
  init_image : Option ImageRef
  init_image_strength : Rat
  seed : Option Int
  sampler_type : String
  steps : Int
  height : Int
  width : Int
  mask_image : Option String
  mask_prompt : Option String
  mask_expansion : Int
  mask_mode : String
  upscale : Bool
  fix_faces : Bool
deriving DecidableEq, Repr

/-- The parameters of `imagine_cmd`, with the CLI defaults declared by
the `click.option` decorators. Fields that the command only forwards to
`load_model` / `imagine_image_files` are carried for fidelity but play no
role in job construction. -/
structure ImagineCmdArgs where
  prompt_texts : List String := []
  prompt_strength : Rat := 7.5
  init_image : Option String := none
  init_image_strength : Rat := 0.6
  outdir : String := "./outputs"
  repeats : Int := 1
  height : Int := 512
  width : Int := 512
  steps : Int := 40
  seed : Option Int := none
  upscale : Bool := false
  fix_faces : Bool := false
  sampler_type : String := "plms"
  ddim_eta : Rat := 0
  log_level : String := "INFO"
  show_work : List String := ["none"]
  tile : Bool := false
  mask_image : Option String := none
  mask_prompt : Option String := none
  mask_mode : String := "replace"
  mask_expansion : Int := 2
  caption : Bool := false
deriving DecidableEq, Repr

/-- The sampler value in effect after the override at `cmds.py:188-189`:
`if init_image and sampler_type != "ddim": sampler_type = "ddim"`. -/
def effectiveSampler (a : ImagineCmdArgs) : String :=
  if pyTruthy a.init_image && a.sampler_type != ddimSampler then ddimSampler
  else a.sampler_type

/-- The init-image value after the wrapping at `cmds.py:192-193`:
`if init_image and init_image.startswith("http"): init_image =
LazyLoadingImage(url=init_image)`; otherwise the value is left as the raw
string (or stays absent). -/
def resolvedInitImage (a : ImagineCmdArgs) : Option ImageRef :=
  match a.init_image with
  | none => none
  | some s =>
      if !s.isEmpty && pyStartsWith s httpScheme then some (ImageRef.lazyUrl s)
      else some (ImageRef.rawString s)

/-- The `ImaginePrompt(...)` constructor call in the loop body at
`cmds.py:199-215`: binds one prompt text with the shared parameters. -/
def mkPrompt (a : ImagineCmdArgs) (t : String) : ImaginePrompt :=
  { prompt_text := t
    prompt_strength := a.prompt_strength
    init_image := resolvedInitImage a
    init_image_strength := a.init_image_strength
    seed := a.seed
    sampler_type := effectiveSampler a
    steps := a.steps
    height := a.height
    width := a.width
    mask_image := a.mask_image
    mask_prompt := a.mask_prompt
    mask_expansion := a.mask_expansion
    mask_mode := a.mask_mode
    upscale := a.upscale
    fix_faces := a.fix_faces }

/-- The nested loop at `cmds.py:195-216`: `for _ in range(repeats): for
prompt_text in prompt_texts: prompts.append(ImaginePrompt(...))`.
Python `range` of a negative count is empty, hence `Int.toNat`. -/
def imagineCmdPrompts (a : ImagineCmdArgs) : List ImaginePrompt :=
  (List.range a.repeats.toNat).foldl
    (fun prompts _ =>
      a.prompt_texts.foldl (fun prompts t => prompts ++ [mkPrompt a t]) prompts)
    []

/-- The error kinds named by the error-handling design. -/
inductive CmdError where
  | invalidParameter (msg : String)
  | sourceUnavailable (msg : String)
deriving DecidableEq, Repr

/-- The whole job-construction phase of `imagine_cmd` as a fallible
computation. The source contains no validation branch and no `raise`
between argument entry and the end of the construction loop, so the
result is unconditionally successful. -/
def imagineCmdRun (a : ImagineCmdArgs) : Except CmdError (List ImaginePrompt) :=
  Except.ok (imagineCmdPrompts a)

/-- Per-path source resolution inside the first loop of `describe` at
`cmds.py:239-244`: an http value becomes a url-backed lazy image, any
other value a filepath-backed one. -/
def describeResolve (p : String) : ImageRef :=
  if pyStartsWith p httpScheme then ImageRef.lazyUrl p else ImageRef.lazyFile p

/-- The first loop of `describe`: builds the `imgs` list in input order. -/
def describeImgs (image_filepaths : List String) : List ImageRef :=
  image_filepaths.foldl (fun imgs p => imgs ++ [describeResolve p]) []

/-- The second loop of `describe` at `cmds.py:245-246`: one printed line
per image, `generate_caption(img.copy())`, in list order. The external
captioning service is an arbitrary function argument. -/
def describeOutput (generate_caption : ImageRef → String)
    (image_filepaths : List String) : List String :=
  (describeImgs image_filepaths).foldl
    (fun lines img => lines ++ [generate_caption img]) []

/-! ### List lemmas about append-accumulating folds -/

/-- A fold that appends one constructed element per input is a map. -/
theorem foldl_push {α β : Type} (f : α → β) (l : List α) :
    ∀ init : List β, l.foldl (fun acc x => acc ++ [f x]) init = init ++ l.map f := by
  induction l with
  | nil => intro init; simp
  | cons x xs ih => intro init; simp [ih]

/-- `n` concatenated copies of a block. -/
def repBlocks {β : Type} : Nat → List β → List β
  | 0, _ => []
  | n + 1, block => block ++ repBlocks n block

/-- A fold that appends a fixed block once per input element concatenates
as many copies of the block as there are elements. -/
theorem foldl_blocks {α β : Type} (block : List β) (l : List α) :
    ∀ init : List β,
      l.foldl (fun acc _ => acc ++ block) init = init ++ repBlocks l.length block := by
  induction l with
  | nil => intro init; simp [repBlocks]
  | cons x xs ih => intro init; simp [ih, repBlocks]

theorem repBlocks_length {β : Type} (block : List β) :
    ∀ n, (repBlocks n block).length = n * block.length := by
  intro n
  induction n with
  | zero => simp [repBlocks]
  | succ n ih => simp [repBlocks, ih, Nat.succ_mul, Nat.add_comm]

theorem repBlocks_getElem {β : Type} (block : List β) :
    ∀ n r i, r < n → i < block.length →
      (repBlocks n block)[r * block.length + i]? = block[i]? := by
  intro n
  induction n with
  | zero => intro r i hr _; exact absurd hr (Nat.not_lt_zero r)
  | succ n ih =>
      intro r i hr hi
      match r with
      | 0 =>
          simp only [repBlocks, Nat.zero_mul, Nat.zero_add]
          rw [List.getElem?_append_left hi]
      | r + 1 =>
          have hidx : (r + 1) * block.length + i
              = block.length + (r * block.length + i) := by ring
          simp only [repBlocks, hidx]
          rw [List.getElem?_append_right (Nat.le_add_right _ _)]
          rw [Nat.add_sub_cancel_left]
          exact ih r i (Nat.lt_of_succ_lt_succ hr) hi

theorem mem_repBlocks_of_mem {β : Type} {block : List β} {x : β} :
    ∀ n, 0 < n → x ∈ block → x ∈ repBlocks n block := by
  intro n hn hx
  match n with
  | m + 1 => exact List.mem_append_left _ hx

theorem mem_repBlocks {β : Type} (block : List β) :
    ∀ n x, x ∈ repBlocks n block → x ∈ block := by
  intro n
  induction n with
  | zero => intro x hx; simp [repBlocks] at hx
  | succ n ih =>
      intro x hx
      simp only [repBlocks, List.mem_append] at hx
      rcases hx with h | h
      · exact h
      · exact ih x h

/-! ### Normal forms of the embedded commands -/

/-- The construction loop produces `repeats.toNat` copies of the block of
per-prompt jobs, in supplied prompt order within each copy. -/
theorem imagineCmdPrompts_eq (a : ImagineCmdArgs) :
    imagineCmdPrompts a
      = repBlocks a.repeats.toNat (a.prompt_texts.map (mkPrompt a)) := by
  unfold imagineCmdPrompts
  have h1 : (fun (prompts : List ImaginePrompt) (_ : Nat) =>
        a.prompt_texts.foldl (fun ps t => ps ++ [mkPrompt a t]) prompts)
      = fun prompts _ => prompts ++ a.prompt_texts.map (mkPrompt a) := by
    funext prompts j
    exact foldl_push (mkPrompt a) a.prompt_texts prompts
  rw [h1, foldl_blocks, List.length_range, List.nil_append]

/-- Every job in the batch is the constructor applied to some supplied
prompt text. -/
theorem mem_imagineCmdPrompts (a : ImagineCmdArgs) (p : ImaginePrompt)
    (hp : p ∈ imagineCmdPrompts a) :
    ∃ t ∈ a.prompt_texts, p = mkPrompt a t := by
  rw [imagineCmdPrompts_eq] at hp
  have hb := mem_repBlocks _ _ _ hp
  rcases List.mem_map.mp hb with ⟨t, ht, rfl⟩
  exact ⟨t, ht, rfl⟩

/-- Each supplied prompt text appears in the batch whenever at least one
repeat is requested. -/
theorem mkPrompt_mem (a : ImagineCmdArgs) (t : String)
    (ht : t ∈ a.prompt_texts) (hr : 1 ≤ a.repeats) :
    mkPrompt a t ∈ imagineCmdPrompts a := by
  rw [imagineCmdPrompts_eq]
  refine mem_repBlocks_of_mem _ ?_ (List.mem_map_of_mem (mkPrompt a) ht)
  have : (1 : Int).toNat ≤ a.repeats.toNat := Int.toNat_le_toNat hr
  exact Nat.lt_of_lt_of_le Nat.zero_lt_one this

theorem describeImgs_eq (l : List String) :
    describeImgs l = l.map describeResolve := by
  unfold describeImgs
  rw [foldl_push, List.nil_append]

theorem describeOutput_eq (cap : ImageRef → String) (l : List String) :
    describeOutput cap l = l.map (fun p => cap (describeResolve p)) := by
  unfold describeOutput
  rw [foldl_push, List.nil_append, describeImgs_eq, List.map_map]
  rfl

/-! ### Auxiliary facts -/

theorem repBlocks_nil {β : Type} : ∀ n, repBlocks n ([] : List β) = [] := by
  intro n
  induction n with
  | zero => rfl
  | succ n ih => simp [repBlocks, ih]

/-! ### Concrete CLI invocations used to instantiate the theorems -/

/-- The invocation of end-to-end scenario 1: two prompts, two repeats. -/
def argsTwoCats : ImagineCmdArgs :=
  { prompt_texts := ["a cat", "a dog"], repeats := 2 }

/-- The invocation of end-to-end scenario 2: default sampler `plms`,
with an init image. -/
def argsImg2Img : ImagineCmdArgs :=
  { prompt_texts := ["a cat"], init_image := some ("photo.jpg") }

/-- An invocation with a negative repeat count. -/
def argsNegRepeats : ImagineCmdArgs :=
  { prompt_texts := ["a cat"], repeats := -1 }

/-- An invocation with a zero repeat count. -/
def argsZeroRepeats : ImagineCmdArgs :=
  { prompt_texts := ["a cat"], repeats := 0 }

/-- An invocation with a fixed seed. -/
def argsFixedSeed : ImagineCmdArgs :=
  { prompt_texts := ["a cat"], seed := some 42 }

/-- An invocation supplying both mask directives. -/
def argsBothMasks : ImagineCmdArgs :=
  { prompt_texts := ["a cat"], mask_image := some ("m.png"),
    mask_prompt := some ("the face") }

/-- The image references of end-to-end scenario 3. -/
def describePaths : List String := ["http://x/y.png", "local.png"]

/-! ### The claims -/

/-- C1: for every sequence of prompt texts of length N and every repeat
count R, the batch construction in the generate command produces exactly
N×R PromptSpec jobs, ordered repeat-major then prompt-order-minor: the
spec at position r×N + i carries the i-th supplied prompt text, for every
r < R and i < N. -/
theorem c1_batch_expansion (a : ImagineCmdArgs) (R N : Nat)
    (hR : a.repeats = (R : Int)) (hN : a.prompt_texts.length = N) :
    (imagineCmdPrompts a).length = N * R ∧
    ∀ r i, r < R → i < N →
      ((imagineCmdPrompts a)[r * N + i]?).map ImaginePrompt.prompt_text
        = a.prompt_texts[i]? := by
  have hRt : a.repeats.toNat = R := by rw [hR]; simp
  constructor
  · rw [imagineCmdPrompts_eq, repBlocks_length, hRt, List.length_map, hN,
      Nat.mul_comm]
  · intro r i hr hi
    have hNlen : (a.prompt_texts.map (mkPrompt a)).length = N := by
      rw [List.length_map, hN]
    have hg := repBlocks_getElem (a.prompt_texts.map (mkPrompt a)) R r i hr
      (by rw [hNlen]; exact hi)
    rw [hNlen] at hg
    rw [imagineCmdPrompts_eq, hRt, hg, List.getElem?_map]
    cases a.prompt_texts[i]? <;> simp [mkPrompt]

/-- C1 witness: scenario 1 instantiated — four jobs, and position
1·2 + 0 carries the first prompt text. -/
theorem c1_batch_expansion_witness :
    (imagineCmdPrompts argsTwoCats).length = 2 * 2 ∧
    ((imagineCmdPrompts argsTwoCats)[1 * 2 + 0]?).map ImaginePrompt.prompt_text
      = argsTwoCats.prompt_texts[0]? := by
  have h := c1_batch_expansion argsTwoCats 2 2 rfl rfl
  exact ⟨h.1, h.2 1 0 (by decide) (by decide)⟩

/-- C2: with an init image present (a truthy value) and a requested
sampler other than ddim, every job in the batch carries sampler ddim;
with no init image present, every job carries the requested sampler
unchanged. -/
theorem c2_sampler_policy (a : ImagineCmdArgs) :
    (pyTruthy a.init_image = true → a.sampler_type ≠ ddimSampler →
      ∀ p ∈ imagineCmdPrompts a, p.sampler_type = ddimSampler) ∧
    (pyTruthy a.init_image = false →
      ∀ p ∈ imagineCmdPrompts a, p.sampler_type = a.sampler_type) := by
  constructor
  · intro htr hne p hp
    rcases mem_imagineCmdPrompts a p hp with ⟨t, _, rfl⟩
    simp [mkPrompt, effectiveSampler, htr, hne]
  · intro hf p hp
    rcases mem_imagineCmdPrompts a p hp with ⟨t, _, rfl⟩
    simp [mkPrompt, effectiveSampler, hf]

/-- C2 witness: scenario 2 instantiated — requested `plms` with init
image `photo.jpg` yields sampler ddim in the resulting job. -/
theorem c2_sampler_policy_witness :
    (mkPrompt argsImg2Img ("a cat")).sampler_type = ddimSampler :=
  (c2_sampler_policy argsImg2Img).1 (by decide) (by decide)
    (mkPrompt argsImg2Img ("a cat"))
    (mkPrompt_mem argsImg2Img ("a cat") (by decide) (by decide))

/-- C3 counterexample: with repeats = −1 the command performs no
validation and returns an empty batch successfully; no InvalidParameter
error is surfaced. -/
theorem c3_no_validation_counterexample :
    argsNegRepeats.repeats = -1 ∧
    imagineCmdRun argsNegRepeats = Except.ok [] :=
  ⟨rfl, rfl⟩

/-- C3 amended: a non-positive repeats value is not rejected with an
InvalidParameter error; the construction loop simply runs zero times and
the command succeeds with an empty job sequence. -/
theorem c3_nonpositive_repeats_empty (a : ImagineCmdArgs)
    (h : a.repeats ≤ 0) :
    imagineCmdRun a = Except.ok [] := by
  unfold imagineCmdRun
  rw [imagineCmdPrompts_eq, Int.toNat_of_nonpos h]
  rfl

/-- C3 witness: the amended claim instantiated at repeats = −1. -/
theorem c3_nonpositive_repeats_empty_witness :
    imagineCmdRun argsNegRepeats = Except.ok [] :=
  c3_nonpositive_repeats_empty argsNegRepeats (by decide)

/-- C4: an empty prompt-text sequence, or repeats = 0, yields an empty
job sequence without an error. -/
theorem c4_empty_inputs_empty_batch (a : ImagineCmdArgs)
    (h : a.prompt_texts = [] ∨ a.repeats = 0) :
    imagineCmdRun a = Except.ok [] := by
  unfold imagineCmdRun
  rw [imagineCmdPrompts_eq]
  rcases h with h | h
  · rw [h, List.map_nil, repBlocks_nil]
  · rw [h]
    rfl

/-- C4 witness: the claim instantiated at repeats = 0. -/
theorem c4_empty_inputs_empty_batch_witness :
    imagineCmdRun argsZeroRepeats = Except.ok [] :=
  c4_empty_inputs_empty_batch argsZeroRepeats (Or.inr rfl)

/-- C5: a fixed seed is copied verbatim into every job of the batch; an
absent seed stays absent in every job. -/
theorem c5_seed_propagation (a : ImagineCmdArgs) :
    (∀ s : Int, a.seed = some s → ∀ p ∈ imagineCmdPrompts a, p.seed = some s) ∧
    (a.seed = none → ∀ p ∈ imagineCmdPrompts a, p.seed = none) := by
  constructor
  · intro s hs p hp
    rcases mem_imagineCmdPrompts a p hp with ⟨t, _, rfl⟩
    simpa [mkPrompt] using hs
  · intro hs p hp
    rcases mem_imagineCmdPrompts a p hp with ⟨t, _, rfl⟩
    simpa [mkPrompt] using hs

/-- C5 witness: seed 42 instantiated — the constructed job carries
seed 42. -/
theorem c5_seed_propagation_witness :
    (mkPrompt argsFixedSeed ("a cat")).seed = some 42 :=
  (c5_seed_propagation argsFixedSeed).1 42 rfl
    (mkPrompt argsFixedSeed ("a cat"))
    (mkPrompt_mem argsFixedSeed ("a cat") (by decide) (by decide))

/-- C6: for every supplied image reference string, a value beginning
with `http` resolves to a url-backed (remote) source, and every other
value resolves to a filepath-backed (local) source. -/
theorem c6_origin_kind (paths : List String) (i : Nat) (p : String)
    (h : paths[i]? = some p) :
    (pyStartsWith p httpScheme = true →
      (describeImgs paths)[i]? = some (ImageRef.lazyUrl p)) ∧
    (pyStartsWith p httpScheme = false →
      (describeImgs paths)[i]? = some (ImageRef.lazyFile p)) := by
  rw [describeImgs_eq, List.getElem?_map, h]
  constructor
  · intro hw
    simp [describeResolve, hw]
  · intro hw
    simp [describeResolve, hw]

/-- C6 witness: scenario 3 instantiated on its first input — the http
value resolves remotely. -/
theorem c6_origin_kind_witness :
    (describeImgs describePaths)[0]? = some (ImageRef.lazyUrl ("http://x/y.png")) :=
  (c6_origin_kind describePaths 0 ("http://x/y.png") rfl).1 (by decide)

/-- C7: describe produces exactly one caption per input image, in input
order: the output has the same length as the input, and the i-th line is
the caption of the resolution of the i-th input. -/
theorem c7_describe_captions (cap : ImageRef → String) (paths : List String) :
    (describeOutput cap paths).length = paths.length ∧
    ∀ (i : Nat) (p : String), paths[i]? = some p →
      (describeOutput cap paths)[i]? = some (cap (describeResolve p)) := by
  constructor
  · rw [describeOutput_eq, List.length_map]
  · intro i p h
    rw [describeOutput_eq, List.getElem?_map, h]
    rfl

/-- A stand-in for the external captioning service, used to instantiate
the describe theorems on concrete inputs. -/
def stubCaption : ImageRef → String
  | ImageRef.rawString s => s
  | ImageRef.lazyUrl u => u
  | ImageRef.lazyFile f => f

/-- C7 witness: scenario 3 instantiated — two captions, and the second
line captions the locally resolved second input. -/
theorem c7_describe_captions_witness :
    (describeOutput stubCaption describePaths).length = describePaths.length ∧
    (describeOutput stubCaption describePaths)[1]?
      = some (stubCaption (describeResolve ("local.png"))) := by
  have h := c7_describe_captions stubCaption describePaths
  exact ⟨h.1, h.2 1 ("local.png") rfl⟩

/-- C8: within one invocation, every field other than the prompt text is
identical across any two jobs of the batch. -/
theorem c8_shared_fields (a : ImagineCmdArgs) (p q : ImaginePrompt)
    (hp : p ∈ imagineCmdPrompts a) (hq : q ∈ imagineCmdPrompts a) :
    p.prompt_strength = q.prompt_strength ∧
    p.init_image = q.init_image ∧
    p.init_image_strength = q.init_image_strength ∧
    p.seed = q.seed ∧
    p.sampler_type = q.sampler_type ∧
    p.steps = q.steps ∧
    p.height = q.height ∧
    p.width = q.width ∧
    p.mask_image = q.mask_image ∧
    p.mask_prompt = q.mask_prompt ∧
    p.mask_mode = q.mask_mode ∧
    p.mask_expansion = q.mask_expansion ∧
    p.upscale = q.upscale ∧
    p.fix_faces = q.fix_faces := by
  rcases mem_imagineCmdPrompts a p hp with ⟨t1, _, rfl⟩
  rcases mem_imagineCmdPrompts a q hq with ⟨t2, _, rfl⟩
  exact ⟨rfl, rfl, rfl, rfl, rfl, rfl, rfl, rfl, rfl, rfl, rfl, rfl, rfl, rfl⟩

/-- C8 witness: the two jobs of scenario 1 share seed and sampler. -/
theorem c8_shared_fields_witness :
    (mkPrompt argsTwoCats ("a cat")).seed = (mkPrompt argsTwoCats ("a dog")).seed ∧
    (mkPrompt argsTwoCats ("a cat")).sampler_type
      = (mkPrompt argsTwoCats ("a dog")).sampler_type := by
  have h := c8_shared_fields argsTwoCats
    (mkPrompt argsTwoCats ("a cat")) (mkPrompt argsTwoCats ("a dog"))
    (mkPrompt_mem argsTwoCats ("a cat") (by decide) (by decide))
    (mkPrompt_mem argsTwoCats ("a dog") (by decide) (by decide))
  exact ⟨h.2.2.2.1, h.2.2.2.2.1⟩

/-- C9: supplying both a mask image and a mask prompt is accepted without
a mutual-exclusion error — construction succeeds and both values are
carried unchanged into every job. -/
theorem c9_both_masks_accepted (a : ImagineCmdArgs) (mi mp : String)
    (hmi : a.mask_image = some mi) (hmp : a.mask_prompt = some mp) :
    imagineCmdRun a = Except.ok (imagineCmdPrompts a) ∧
    ∀ p ∈ imagineCmdPrompts a, p.mask_image = some mi ∧ p.mask_prompt = some mp := by
  refine ⟨rfl, ?_⟩
  intro p hp
  rcases mem_imagineCmdPrompts a p hp with ⟨t, _, rfl⟩
  exact ⟨by simpa [mkPrompt] using hmi, by simpa [mkPrompt] using hmp⟩

/-- C9 witness: both mask directives supplied — the constructed job
carries both. -/
theorem c9_both_masks_accepted_witness :
    (mkPrompt argsBothMasks ("a cat")).mask_image = some ("m.png") ∧
    (mkPrompt argsBothMasks ("a cat")).mask_prompt = some ("the face") :=
  (c9_both_masks_accepted argsBothMasks ("m.png") ("the face") rfl rfl).2
    (mkPrompt argsBothMasks ("a cat"))
    (mkPrompt_mem argsBothMasks ("a cat") (by decide) (by decide))

/-- An invocation with an http-prefixed mask image and no init image,
exercising the unconditional mask passthrough. -/
def argsHttpMask : ImagineCmdArgs :=
  { prompt_texts := ["a cat"], mask_image := some ("http://m.png") }

/-- C10: an init-image value that does not begin with `http` is placed
into every job as the original raw string, never wrapped at this layer;
and for every invocation whatsoever, the mask-image value is passed
through into every job as the raw optional string, regardless of its
prefix. -/
theorem c10_raw_passthrough (a : ImagineCmdArgs) :
    (∀ s : String, a.init_image = some s → pyStartsWith s httpScheme = false →
      ∀ p ∈ imagineCmdPrompts a, p.init_image = some (ImageRef.rawString s)) ∧
    (∀ p ∈ imagineCmdPrompts a, p.mask_image = a.mask_image) := by
  constructor
  · intro s hs hh p hp
    rcases mem_imagineCmdPrompts a p hp with ⟨t, _, rfl⟩
    simp [mkPrompt, resolvedInitImage, hs, hh]
  · intro p hp
    rcases mem_imagineCmdPrompts a p hp with ⟨t, _, rfl⟩
    rfl

/-- C10 witness: init image `photo.jpg` stays the raw string in the
constructed job; and with no init image at all, an http-prefixed mask
image is still passed through verbatim. -/
theorem c10_raw_passthrough_witness :
    (mkPrompt argsImg2Img ("a cat")).init_image
      = some (ImageRef.rawString ("photo.jpg")) ∧
    (mkPrompt argsHttpMask ("a cat")).mask_image = some ("http://m.png") := by
  have h1 := (c10_raw_passthrough argsImg2Img).1 ("photo.jpg") rfl (by decide)
    (mkPrompt argsImg2Img ("a cat"))
    (mkPrompt_mem argsImg2Img ("a cat") (by decide) (by decide))
  have h2 := (c10_raw_passthrough argsHttpMask).2
    (mkPrompt argsHttpMask ("a cat"))
    (mkPrompt_mem argsHttpMask ("a cat") (by decide) (by decide))
  exact ⟨h1, h2⟩
